import Mathlib

/-!
Verification of the SM2 curve backend (`src/elliptic/curves/sm2.rs`).

The backend adapts the native SM2 engine (scalar field arithmetic, affine
point arithmetic and SEC1 point codecs) to the library's curve contract.
We embed the adapter shallowly: scalars are elements of `ZMod n` for the
SM2 group order `n`, points are nonsingular rational points of the SM2
short Weierstrass curve over `ZMod p`, and byte strings are lists of
naturals below 256.  The arithmetic the adapter delegates to the native
engine (field operations, the complete group law, SEC1 encoding and
decoding) is modelled by the corresponding mathematical operations, which
the engine implements.

Both moduli are 256-bit primes; primality is established with Pratt
certificates through `lucas_primality`, using a verified binary modular
exponentiation so that the kernel can check the certificates.
-/

set_option maxRecDepth 1000000

/-- Fuel-bounded binary modular exponentiation: computes `a ^ k % n`
provided `k < 2 ^ fuel`. -/
def powModAux : Nat → Nat → Nat → Nat → Nat
  | 0, _, _, n => 1 % n
  | f+1, a, k, n =>
    if k = 0 then 1 % n
    else
      let r := powModAux f ((a * a) % n) (k / 2) n
      if k % 2 = 1 then (r * a) % n else r

/-- Binary modular exponentiation; correct for exponents below `2 ^ 300`,
which covers every exponent appearing in this development. -/
def powMod (a k n : Nat) : Nat := powModAux 300 a k n

theorem powModAux_correct : ∀ (f a k n : Nat), 0 < n → k < 2 ^ f →
    powModAux f a k n = a ^ k % n := by
  intro f
  induction f with
  | zero =>
    intro a k n hn hk
    interval_cases k
    simp [powModAux]
  | succ f ih =>
    intro a k n hn hk
    rw [powModAux]
    by_cases hk0 : k = 0
    · simp [hk0]
    · simp only [if_neg hk0]
      have hk2 : k / 2 < 2 ^ f := by
        rw [Nat.div_lt_iff_lt_mul (by norm_num)]
        calc k < 2 ^ (f + 1) := hk
        _ = 2 ^ f * 2 := by ring
      rw [ih _ _ _ hn hk2]
      have base : ((a * a) % n) ^ (k / 2) % n = (a * a) ^ (k / 2) % n := by
        rw [Nat.pow_mod, Nat.mod_mod_of_dvd _ dvd_rfl, ← Nat.pow_mod]
      by_cases hpar : k % 2 = 1
      · simp only [if_pos hpar]
        rw [base]
        conv_rhs => rw [show k = 2 * (k / 2) + 1 by omega]
        rw [pow_succ, pow_mul, ← pow_mul, Nat.mul_mod, Nat.mod_mod_of_dvd _ dvd_rfl,
          ← Nat.mul_mod]
        ring_nf
      · simp only [if_neg hpar]
        rw [base]
        conv_rhs => rw [show k = 2 * (k / 2) by omega]
        rw [pow_mul, ← pow_mul]
        ring_nf

theorem powMod_correct (a k n : Nat) (hn : 0 < n) (hk : k < 2 ^ 300) :
    powMod a k n = a ^ k % n :=
  powModAux_correct 300 a k n hn hk

/-- Product of a list of naturals. -/
def listProd : List Nat → Nat
  | [] => 1
  | x :: xs => x * listProd xs

theorem prime_mem_of_dvd_listProd {q : Nat} (hq : Nat.Prime q) :
    ∀ l : List Nat, (∀ f ∈ l, Nat.Prime f) → q ∣ listProd l → q ∈ l := by
  intro l
  induction l with
  | nil =>
    intro _ h
    have h1 : q ≤ 1 := Nat.le_of_dvd one_pos h
    exact absurd h1 (by have := hq.one_lt; omega)
  | cons x xs ih =>
    intro hmem h
    rcases (Nat.Prime.dvd_mul hq).mp h with hx | hxs
    · have : q = x :=
        (Nat.prime_dvd_prime_iff_eq hq (hmem x (List.mem_cons_self x xs))).mp hx
      exact this ▸ List.mem_cons_self x xs
    · exact List.mem_cons_of_mem x
        (ih (fun f hf => hmem f (List.mem_cons_of_mem x hf)) hxs)

/-- Pratt-style primality certificate checker: `a` is a witness of order
`p - 1` in `ZMod p`, and `fs` lists every prime factor of `p - 1`
(with multiplicity). -/
theorem lucasCert (p a : Nat) (fs : List Nat)
    (hp : 2 ≤ p) (hlt : p < 2 ^ 300)
    (hprod : p - 1 = listProd fs)
    (hprimes : ∀ f ∈ fs, Nat.Prime f)
    (ha : powMod a (p - 1) p = 1)
    (hd : ∀ f ∈ fs, powMod a ((p - 1) / f) p ≠ 1) :
    Nat.Prime p := by
  have hp0 : 0 < p := by omega
  have h1p : 1 % p = 1 := Nat.mod_eq_of_lt (by omega)
  have key : ∀ k : Nat, k < 2 ^ 300 → ((a : ZMod p) ^ k = 1 ↔ powMod a k p = 1) := by
    intro k hk
    rw [← Nat.cast_pow, show (1 : ZMod p) = ((1 : Nat) : ZMod p) by simp,
      ZMod.natCast_eq_natCast_iff', h1p, powMod_correct a k p hp0 hk]
  apply lucas_primality p (a : ZMod p)
  · exact (key (p - 1) (by omega)).mpr ha
  · intro q hq hdvd
    have hqfs : q ∈ fs := prime_mem_of_dvd_listProd hq fs hprimes (hprod ▸ hdvd)
    intro hcon
    exact hd q hqfs
      ((key ((p - 1) / q) (lt_of_le_of_lt (Nat.div_le_self _ _) (by omega))).mp hcon)
/-- 2 is prime (trial division). -/
theorem prime_2 : Nat.Prime 2 := by norm_num

/-- 3 is prime (trial division). -/
theorem prime_3 : Nat.Prime 3 := by norm_num

/-- 5 is prime (trial division). -/
theorem prime_5 : Nat.Prime 5 := by norm_num

/-- 7 is prime (trial division). -/
theorem prime_7 : Nat.Prime 7 := by norm_num

/-- 11 is prime (trial division). -/
theorem prime_11 : Nat.Prime 11 := by norm_num

/-- 13 is prime (trial division). -/
theorem prime_13 : Nat.Prime 13 := by norm_num

/-- 31 is prime (trial division). -/
theorem prime_31 : Nat.Prime 31 := by norm_num

/-- 41 is prime (trial division). -/
theorem prime_41 : Nat.Prime 41 := by norm_num

/-- 43 is prime (trial division). -/
theorem prime_43 : Nat.Prime 43 := by norm_num

/-- 53 is prime (trial division). -/
theorem prime_53 : Nat.Prime 53 := by norm_num

/-- 59 is prime (trial division). -/
theorem prime_59 : Nat.Prime 59 := by norm_num

/-- 61 is prime (trial division). -/
theorem prime_61 : Nat.Prime 61 := by norm_num

/-- 67 is prime (trial division). -/
theorem prime_67 : Nat.Prime 67 := by norm_num

/-- 71 is prime (trial division). -/
theorem prime_71 : Nat.Prime 71 := by norm_num

/-- 79 is prime (trial division). -/
theorem prime_79 : Nat.Prime 79 := by norm_num

/-- 97 is prime (trial division). -/
theorem prime_97 : Nat.Prime 97 := by norm_num

/-- 101 is prime (trial division). -/
theorem prime_101 : Nat.Prime 101 := by norm_num

/-- 103 is prime (trial division). -/
theorem prime_103 : Nat.Prime 103 := by norm_num

/-- 127 is prime (trial division). -/
theorem prime_127 : Nat.Prime 127 := by norm_num

/-- 181 is prime (trial division). -/
theorem prime_181 : Nat.Prime 181 := by norm_num

/-- 233 is prime (trial division). -/
theorem prime_233 : Nat.Prime 233 := by norm_num

/-- 337 is prime (trial division). -/
theorem prime_337 : Nat.Prime 337 := by norm_num

/-- 367 is prime (trial division). -/
theorem prime_367 : Nat.Prime 367 := by norm_num

/-- 719 is prime (trial division). -/
theorem prime_719 : Nat.Prime 719 := by norm_num

/-- 769 is prime (trial division). -/
theorem prime_769 : Nat.Prime 769 := by norm_num

/-- 823 is prime (trial division). -/
theorem prime_823 : Nat.Prime 823 := by norm_num

/-- 1013 is prime (trial division). -/
theorem prime_1013 : Nat.Prime 1013 := by norm_num

/-- 1213 is prime (trial division). -/
theorem prime_1213 : Nat.Prime 1213 := by norm_num

/-- 1447 is prime (trial division). -/
theorem prime_1447 : Nat.Prime 1447 := by norm_num

/-- 2473 is prime (trial division). -/
theorem prime_2473 : Nat.Prime 2473 := by norm_num

/-- 3049 is prime (trial division). -/
theorem prime_3049 : Nat.Prime 3049 := by norm_num

/-- 4547 is prime (trial division). -/
theorem prime_4547 : Nat.Prime 4547 := by norm_num

/-- 4957 is prime (trial division). -/
theorem prime_4957 : Nat.Prime 4957 := by norm_num

/-- 5303 is prime (trial division). -/
theorem prime_5303 : Nat.Prime 5303 := by norm_num

/-- 5711 is prime (trial division). -/
theorem prime_5711 : Nat.Prime 5711 := by norm_num

/-- 5801 is prime (trial division). -/
theorem prime_5801 : Nat.Prime 5801 := by norm_num

/-- 7759 is prime (trial division). -/
theorem prime_7759 : Nat.Prime 7759 := by norm_num

/-- 12149 is prime (trial division). -/
theorem prime_12149 : Nat.Prime 12149 := by norm_num

/-- 14057 is prime (trial division). -/
theorem prime_14057 : Nat.Prime 14057 := by norm_num

/-- 30223 is prime (trial division). -/
theorem prime_30223 : Nat.Prime 30223 := by norm_num

/-- 34511 is prime (trial division). -/
theorem prime_34511 : Nat.Prime 34511 := by norm_num

/-- 54983 is prime (trial division). -/
theorem prime_54983 : Nat.Prime 54983 := by norm_num

/-- 71209 is prime (trial division). -/
theorem prime_71209 : Nat.Prime 71209 := by norm_num

/-- 84163 is prime (trial division). -/
theorem prime_84163 : Nat.Prime 84163 := by norm_num

/-- Pratt certificate: 110899 is prime, with witness 3 and
prime factorisation of 110899 - 1 as [2, 3, 3, 61, 101]. -/
theorem prime_110899 : Nat.Prime 110899 :=
  lucasCert 110899 3 [2, 3, 3, 61, 101]
    (by norm_num) (by norm_num)
    (by decide)
    (List.forall_mem_cons.mpr ⟨prime_2, List.forall_mem_cons.mpr ⟨prime_3, List.forall_mem_cons.mpr ⟨prime_3, List.forall_mem_cons.mpr ⟨prime_61, List.forall_mem_cons.mpr ⟨prime_101, List.forall_mem_nil _⟩⟩⟩⟩⟩)
    (by decide)
    (by decide)

/-- Pratt certificate: 179429 is prime, with witness 2 and
prime factorisation of 179429 - 1 as [2, 2, 31, 1447]. -/
theorem prime_179429 : Nat.Prime 179429 :=
  lucasCert 179429 2 [2, 2, 31, 1447]
    (by norm_num) (by norm_num)
    (by decide)
    (List.forall_mem_cons.mpr ⟨prime_2, List.forall_mem_cons.mpr ⟨prime_2, List.forall_mem_cons.mpr ⟨prime_31, List.forall_mem_cons.mpr ⟨prime_1447, List.forall_mem_nil _⟩⟩⟩⟩)
    (by decide)
    (by decide)

/-- Pratt certificate: 363761 is prime, with witness 3 and
prime factorisation of 363761 - 1 as [2, 2, 2, 2, 5, 4547]. -/
theorem prime_363761 : Nat.Prime 363761 :=
  lucasCert 363761 3 [2, 2, 2, 2, 5, 4547]
    (by norm_num) (by norm_num)
    (by decide)
    (List.forall_mem_cons.mpr ⟨prime_2, List.forall_mem_cons.mpr ⟨prime_2, List.forall_mem_cons.mpr ⟨prime_2, List.forall_mem_cons.mpr ⟨prime_2, List.forall_mem_cons.mpr ⟨prime_5, List.forall_mem_cons.mpr ⟨prime_4547, List.forall_mem_nil _⟩⟩⟩⟩⟩⟩)
    (by decide)
    (by decide)

/-- Pratt certificate: 3079049 is prime, with witness 3 and
prime factorisation of 3079049 - 1 as [2, 2, 2, 7, 54983]. -/
theorem prime_3079049 : Nat.Prime 3079049 :=
  lucasCert 3079049 3 [2, 2, 2, 7, 54983]
    (by norm_num) (by norm_num)
    (by decide)
    (List.forall_mem_cons.mpr ⟨prime_2, List.forall_mem_cons.mpr ⟨prime_2, List.forall_mem_cons.mpr ⟨prime_2, List.forall_mem_cons.mpr ⟨prime_7, List.forall_mem_cons.mpr ⟨prime_54983, List.forall_mem_nil _⟩⟩⟩⟩⟩)
    (by decide)
    (by decide)

/-- Pratt certificate: 6158099 is prime, with witness 2 and
prime factorisation of 6158099 - 1 as [2, 3079049]. -/
theorem prime_6158099 : Nat.Prime 6158099 :=
  lucasCert 6158099 2 [2, 3079049]
    (by norm_num) (by norm_num)
    (by decide)
    (List.forall_mem_cons.mpr ⟨prime_2, List.forall_mem_cons.mpr ⟨prime_3079049, List.forall_mem_nil _⟩⟩)
    (by decide)
    (by decide)

/-- Pratt certificate: 8214737 is prime, with witness 3 and
prime factorisation of 8214737 - 1 as [2, 2, 2, 2, 67, 79, 97]. -/
theorem prime_8214737 : Nat.Prime 8214737 :=
  lucasCert 8214737 3 [2, 2, 2, 2, 67, 79, 97]
    (by norm_num) (by norm_num)
    (by decide)
    (List.forall_mem_cons.mpr ⟨prime_2, List.forall_mem_cons.mpr ⟨prime_2, List.forall_mem_cons.mpr ⟨prime_2, List.forall_mem_cons.mpr ⟨prime_2, List.forall_mem_cons.mpr ⟨prime_67, List.forall_mem_cons.mpr ⟨prime_79, List.forall_mem_cons.mpr ⟨prime_97, List.forall_mem_nil _⟩⟩⟩⟩⟩⟩⟩)
    (by decide)
    (by decide)

/-- Pratt certificate: 9061163 is prime, with witness 2 and
prime factorisation of 9061163 - 1 as [2, 11, 71, 5801]. -/
theorem prime_9061163 : Nat.Prime 9061163 :=
  lucasCert 9061163 2 [2, 11, 71, 5801]
    (by norm_num) (by norm_num)
    (by decide)
    (List.forall_mem_cons.mpr ⟨prime_2, List.forall_mem_cons.mpr ⟨prime_11, List.forall_mem_cons.mpr ⟨prime_71, List.forall_mem_cons.mpr ⟨prime_5801, List.forall_mem_nil _⟩⟩⟩⟩)
    (by decide)
    (by decide)

/-- Pratt certificate: 10042883 is prime, with witness 2 and
prime factorisation of 10042883 - 1 as [2, 1013, 4957]. -/
theorem prime_10042883 : Nat.Prime 10042883 :=
  lucasCert 10042883 2 [2, 1013, 4957]
    (by norm_num) (by norm_num)
    (by decide)
    (List.forall_mem_cons.mpr ⟨prime_2, List.forall_mem_cons.mpr ⟨prime_1013, List.forall_mem_cons.mpr ⟨prime_4957, List.forall_mem_nil _⟩⟩⟩)
    (by decide)
    (by decide)

/-- Pratt certificate: 17965699 is prime, with witness 2 and
prime factorisation of 17965699 - 1 as [2, 3, 71, 181, 233]. -/
theorem prime_17965699 : Nat.Prime 17965699 :=
  lucasCert 17965699 2 [2, 3, 71, 181, 233]
    (by norm_num) (by norm_num)
    (by decide)
    (List.forall_mem_cons.mpr ⟨prime_2, List.forall_mem_cons.mpr ⟨prime_3, List.forall_mem_cons.mpr ⟨prime_71, List.forall_mem_cons.mpr ⟨prime_181, List.forall_mem_cons.mpr ⟨prime_233, List.forall_mem_nil _⟩⟩⟩⟩⟩)
    (by decide)
    (by decide)

/-- Pratt certificate: 107615843 is prime, with witness 2 and
prime factorisation of 107615843 - 1 as [2, 43, 103, 12149]. -/
theorem prime_107615843 : Nat.Prime 107615843 :=
  lucasCert 107615843 2 [2, 43, 103, 12149]
    (by norm_num) (by norm_num)
    (by decide)
    (List.forall_mem_cons.mpr ⟨prime_2, List.forall_mem_cons.mpr ⟨prime_43, List.forall_mem_cons.mpr ⟨prime_103, List.forall_mem_cons.mpr ⟨prime_12149, List.forall_mem_nil _⟩⟩⟩⟩)
    (by decide)
    (by decide)

/-- Pratt certificate: 117774739 is prime, with witness 2 and
prime factorisation of 117774739 - 1 as [2, 3, 3, 59, 110899]. -/
theorem prime_117774739 : Nat.Prime 117774739 :=
  lucasCert 117774739 2 [2, 3, 3, 59, 110899]
    (by norm_num) (by norm_num)
    (by decide)
    (List.forall_mem_cons.mpr ⟨prime_2, List.forall_mem_cons.mpr ⟨prime_3, List.forall_mem_cons.mpr ⟨prime_3, List.forall_mem_cons.mpr ⟨prime_59, List.forall_mem_cons.mpr ⟨prime_110899, List.forall_mem_nil _⟩⟩⟩⟩⟩)
    (by decide)
    (by decide)

/-- Pratt certificate: 1413296869 is prime, with witness 6 and
prime factorisation of 1413296869 - 1 as [2, 2, 3, 117774739]. -/
theorem prime_1413296869 : Nat.Prime 1413296869 :=
  lucasCert 1413296869 6 [2, 2, 3, 117774739]
    (by norm_num) (by norm_num)
    (by decide)
    (List.forall_mem_cons.mpr ⟨prime_2, List.forall_mem_cons.mpr ⟨prime_2, List.forall_mem_cons.mpr ⟨prime_3, List.forall_mem_cons.mpr ⟨prime_117774739, List.forall_mem_nil _⟩⟩⟩⟩)
    (by decide)
    (by decide)

/-- Pratt certificate: 2566129871 is prime, with witness 7 and
prime factorisation of 2566129871 - 1 as [2, 5, 3049, 84163]. -/
theorem prime_2566129871 : Nat.Prime 2566129871 :=
  lucasCert 2566129871 7 [2, 5, 3049, 84163]
    (by norm_num) (by norm_num)
    (by decide)
    (List.forall_mem_cons.mpr ⟨prime_2, List.forall_mem_cons.mpr ⟨prime_5, List.forall_mem_cons.mpr ⟨prime_3049, List.forall_mem_cons.mpr ⟨prime_84163, List.forall_mem_nil _⟩⟩⟩⟩)
    (by decide)
    (by decide)

/-- Pratt certificate: 3017783777 is prime, with witness 3 and
prime factorisation of 3017783777 - 1 as [2, 2, 2, 2, 2, 7, 7, 337, 5711]. -/
theorem prime_3017783777 : Nat.Prime 3017783777 :=
  lucasCert 3017783777 3 [2, 2, 2, 2, 2, 7, 7, 337, 5711]
    (by norm_num) (by norm_num)
    (by decide)
    (List.forall_mem_cons.mpr ⟨prime_2, List.forall_mem_cons.mpr ⟨prime_2, List.forall_mem_cons.mpr ⟨prime_2, List.forall_mem_cons.mpr ⟨prime_2, List.forall_mem_cons.mpr ⟨prime_2, List.forall_mem_cons.mpr ⟨prime_7, List.forall_mem_cons.mpr ⟨prime_7, List.forall_mem_cons.mpr ⟨prime_337, List.forall_mem_cons.mpr ⟨prime_5711, List.forall_mem_nil _⟩⟩⟩⟩⟩⟩⟩⟩⟩)
    (by decide)
    (by decide)

/-- Pratt certificate: 348253387243 is prime, with witness 3 and
prime factorisation of 348253387243 - 1 as [2, 3, 61, 5303, 179429]. -/
theorem prime_348253387243 : Nat.Prime 348253387243 :=
  lucasCert 348253387243 3 [2, 3, 61, 5303, 179429]
    (by norm_num) (by norm_num)
    (by decide)
    (List.forall_mem_cons.mpr ⟨prime_2, List.forall_mem_cons.mpr ⟨prime_3, List.forall_mem_cons.mpr ⟨prime_61, List.forall_mem_cons.mpr ⟨prime_5303, List.forall_mem_cons.mpr ⟨prime_179429, List.forall_mem_nil _⟩⟩⟩⟩⟩)
    (by decide)
    (by decide)

/-- Pratt certificate: 2368433183657 is prime, with witness 3 and
prime factorisation of 2368433183657 - 1 as [2, 2, 2, 41, 719, 10042883]. -/
theorem prime_2368433183657 : Nat.Prime 2368433183657 :=
  lucasCert 2368433183657 3 [2, 2, 2, 41, 719, 10042883]
    (by norm_num) (by norm_num)
    (by decide)
    (List.forall_mem_cons.mpr ⟨prime_2, List.forall_mem_cons.mpr ⟨prime_2, List.forall_mem_cons.mpr ⟨prime_2, List.forall_mem_cons.mpr ⟨prime_41, List.forall_mem_cons.mpr ⟨prime_719, List.forall_mem_cons.mpr ⟨prime_10042883, List.forall_mem_nil _⟩⟩⟩⟩⟩⟩)
    (by decide)
    (by decide)

/-- Pratt certificate: 4641351449027 is prime, with witness 2 and
prime factorisation of 4641351449027 - 1 as [2, 769, 3017783777]. -/
theorem prime_4641351449027 : Nat.Prime 4641351449027 :=
  lucasCert 4641351449027 2 [2, 769, 3017783777]
    (by norm_num) (by norm_num)
    (by decide)
    (List.forall_mem_cons.mpr ⟨prime_2, List.forall_mem_cons.mpr ⟨prime_769, List.forall_mem_cons.mpr ⟨prime_3017783777, List.forall_mem_nil _⟩⟩⟩)
    (by decide)
    (by decide)

/-- Pratt certificate: 5636460199499 is prime, with witness 2 and
prime factorisation of 5636460199499 - 1 as [2, 31, 79, 127, 9061163]. -/
theorem prime_5636460199499 : Nat.Prime 5636460199499 :=
  lucasCert 5636460199499 2 [2, 31, 79, 127, 9061163]
    (by norm_num) (by norm_num)
    (by decide)
    (List.forall_mem_cons.mpr ⟨prime_2, List.forall_mem_cons.mpr ⟨prime_31, List.forall_mem_cons.mpr ⟨prime_79, List.forall_mem_cons.mpr ⟨prime_127, List.forall_mem_cons.mpr ⟨prime_9061163, List.forall_mem_nil _⟩⟩⟩⟩⟩)
    (by decide)
    (by decide)

/-- Pratt certificate: 101456283590983 is prime, with witness 3 and
prime factorisation of 101456283590983 - 1 as [2, 3, 3, 5636460199499]. -/
theorem prime_101456283590983 : Nat.Prime 101456283590983 :=
  lucasCert 101456283590983 3 [2, 3, 3, 5636460199499]
    (by norm_num) (by norm_num)
    (by decide)
    (List.forall_mem_cons.mpr ⟨prime_2, List.forall_mem_cons.mpr ⟨prime_3, List.forall_mem_cons.mpr ⟨prime_3, List.forall_mem_cons.mpr ⟨prime_5636460199499, List.forall_mem_nil _⟩⟩⟩⟩)
    (by decide)
    (by decide)

/-- Pratt certificate: 417514796639753 is prime, with witness 3 and
prime factorisation of 417514796639753 - 1 as [2, 2, 2, 7, 367, 2473, 8214737]. -/
theorem prime_417514796639753 : Nat.Prime 417514796639753 :=
  lucasCert 417514796639753 3 [2, 2, 2, 7, 367, 2473, 8214737]
    (by norm_num) (by norm_num)
    (by decide)
    (List.forall_mem_cons.mpr ⟨prime_2, List.forall_mem_cons.mpr ⟨prime_2, List.forall_mem_cons.mpr ⟨prime_2, List.forall_mem_cons.mpr ⟨prime_7, List.forall_mem_cons.mpr ⟨prime_367, List.forall_mem_cons.mpr ⟨prime_2473, List.forall_mem_cons.mpr ⟨prime_8214737, List.forall_mem_nil _⟩⟩⟩⟩⟩⟩⟩)
    (by decide)
    (by decide)

/-- Pratt certificate: 3258964060712033 is prime, with witness 3 and
prime factorisation of 3258964060712033 - 1 as [2, 2, 2, 2, 2, 43, 2368433183657]. -/
theorem prime_3258964060712033 : Nat.Prime 3258964060712033 :=
  lucasCert 3258964060712033 3 [2, 2, 2, 2, 2, 43, 2368433183657]
    (by norm_num) (by norm_num)
    (by decide)
    (List.forall_mem_cons.mpr ⟨prime_2, List.forall_mem_cons.mpr ⟨prime_2, List.forall_mem_cons.mpr ⟨prime_2, List.forall_mem_cons.mpr ⟨prime_2, List.forall_mem_cons.mpr ⟨prime_2, List.forall_mem_cons.mpr ⟨prime_43, List.forall_mem_cons.mpr ⟨prime_2368433183657, List.forall_mem_nil _⟩⟩⟩⟩⟩⟩⟩)
    (by decide)
    (by decide)

/-- Pratt certificate: 4773264379806847 is prime, with witness 3 and
prime factorisation of 4773264379806847 - 1 as [2, 3, 7, 11, 823, 34511, 363761]. -/
theorem prime_4773264379806847 : Nat.Prime 4773264379806847 :=
  lucasCert 4773264379806847 3 [2, 3, 7, 11, 823, 34511, 363761]
    (by norm_num) (by norm_num)
    (by decide)
    (List.forall_mem_cons.mpr ⟨prime_2, List.forall_mem_cons.mpr ⟨prime_3, List.forall_mem_cons.mpr ⟨prime_7, List.forall_mem_cons.mpr ⟨prime_11, List.forall_mem_cons.mpr ⟨prime_823, List.forall_mem_cons.mpr ⟨prime_34511, List.forall_mem_cons.mpr ⟨prime_363761, List.forall_mem_nil _⟩⟩⟩⟩⟩⟩⟩)
    (by decide)
    (by decide)

/-- Pratt certificate: 66013261729388519804782124120027 is prime, with witness 2 and
prime factorisation of 66013261729388519804782124120027 - 1 as [2, 13, 1213, 71209, 6158099, 4773264379806847]. -/
theorem prime_66013261729388519804782124120027 : Nat.Prime 66013261729388519804782124120027 :=
  lucasCert 66013261729388519804782124120027 2 [2, 13, 1213, 71209, 6158099, 4773264379806847]
    (by norm_num) (by norm_num)
    (by decide)
    (List.forall_mem_cons.mpr ⟨prime_2, List.forall_mem_cons.mpr ⟨prime_13, List.forall_mem_cons.mpr ⟨prime_1213, List.forall_mem_cons.mpr ⟨prime_71209, List.forall_mem_cons.mpr ⟨prime_6158099, List.forall_mem_cons.mpr ⟨prime_4773264379806847, List.forall_mem_nil _⟩⟩⟩⟩⟩⟩)
    (by decide)
    (by decide)

/-- Pratt certificate: 18120927127286907576013935251791662753637 is prime, with witness 6 and
prime factorisation of 18120927127286907576013935251791662753637 - 1 as [2, 2, 3, 3, 17965699, 107615843, 2566129871, 101456283590983]. -/
theorem prime_18120927127286907576013935251791662753637 : Nat.Prime 18120927127286907576013935251791662753637 :=
  lucasCert 18120927127286907576013935251791662753637 6 [2, 2, 3, 3, 17965699, 107615843, 2566129871, 101456283590983]
    (by norm_num) (by norm_num)
    (by decide)
    (List.forall_mem_cons.mpr ⟨prime_2, List.forall_mem_cons.mpr ⟨prime_2, List.forall_mem_cons.mpr ⟨prime_3, List.forall_mem_cons.mpr ⟨prime_3, List.forall_mem_cons.mpr ⟨prime_17965699, List.forall_mem_cons.mpr ⟨prime_107615843, List.forall_mem_cons.mpr ⟨prime_2566129871, List.forall_mem_cons.mpr ⟨prime_101456283590983, List.forall_mem_nil _⟩⟩⟩⟩⟩⟩⟩⟩)
    (by decide)
    (by decide)

/-- Pratt certificate: 125197554539772723432468576818475380947471091418362477724521 is prime, with witness 3 and
prime factorisation of 125197554539772723432468576818475380947471091418362477724521 - 1 as [2, 2, 2, 5, 53, 3258964060712033, 18120927127286907576013935251791662753637]. -/
theorem prime_125197554539772723432468576818475380947471091418362477724521 : Nat.Prime 125197554539772723432468576818475380947471091418362477724521 :=
  lucasCert 125197554539772723432468576818475380947471091418362477724521 3 [2, 2, 2, 5, 53, 3258964060712033, 18120927127286907576013935251791662753637]
    (by norm_num) (by norm_num)
    (by decide)
    (List.forall_mem_cons.mpr ⟨prime_2, List.forall_mem_cons.mpr ⟨prime_2, List.forall_mem_cons.mpr ⟨prime_2, List.forall_mem_cons.mpr ⟨prime_5, List.forall_mem_cons.mpr ⟨prime_53, List.forall_mem_cons.mpr ⟨prime_3258964060712033, List.forall_mem_cons.mpr ⟨prime_18120927127286907576013935251791662753637, List.forall_mem_nil _⟩⟩⟩⟩⟩⟩⟩)
    (by decide)
    (by decide)

/-- Pratt certificate: 115792089210356248756420345214020892766061623724957744567843809356293439045923 is prime, with witness 3 and
prime factorisation of 115792089210356248756420345214020892766061623724957744567843809356293439045923 - 1 as [2, 3, 7759, 14057, 1413296869, 125197554539772723432468576818475380947471091418362477724521]. -/
theorem prime_115792089210356248756420345214020892766061623724957744567843809356293439045923 : Nat.Prime 115792089210356248756420345214020892766061623724957744567843809356293439045923 :=
  lucasCert 115792089210356248756420345214020892766061623724957744567843809356293439045923 3 [2, 3, 7759, 14057, 1413296869, 125197554539772723432468576818475380947471091418362477724521]
    (by norm_num) (by norm_num)
    (by decide)
    (List.forall_mem_cons.mpr ⟨prime_2, List.forall_mem_cons.mpr ⟨prime_3, List.forall_mem_cons.mpr ⟨prime_7759, List.forall_mem_cons.mpr ⟨prime_14057, List.forall_mem_cons.mpr ⟨prime_1413296869, List.forall_mem_cons.mpr ⟨prime_125197554539772723432468576818475380947471091418362477724521, List.forall_mem_nil _⟩⟩⟩⟩⟩⟩)
    (by decide)
    (by decide)

/-- Pratt certificate: 115792089210356248756420345214020892766250353991924191454421193933289684991999 is prime, with witness 13 and
prime factorisation of 115792089210356248756420345214020892766250353991924191454421193933289684991999 - 1 as [2, 43, 30223, 348253387243, 4641351449027, 417514796639753, 66013261729388519804782124120027]. -/
theorem prime_115792089210356248756420345214020892766250353991924191454421193933289684991999 : Nat.Prime 115792089210356248756420345214020892766250353991924191454421193933289684991999 :=
  lucasCert 115792089210356248756420345214020892766250353991924191454421193933289684991999 13 [2, 43, 30223, 348253387243, 4641351449027, 417514796639753, 66013261729388519804782124120027]
    (by norm_num) (by norm_num)
    (by decide)
    (List.forall_mem_cons.mpr ⟨prime_2, List.forall_mem_cons.mpr ⟨prime_43, List.forall_mem_cons.mpr ⟨prime_30223, List.forall_mem_cons.mpr ⟨prime_348253387243, List.forall_mem_cons.mpr ⟨prime_4641351449027, List.forall_mem_cons.mpr ⟨prime_417514796639753, List.forall_mem_cons.mpr ⟨prime_66013261729388519804782124120027, List.forall_mem_nil _⟩⟩⟩⟩⟩⟩⟩)
    (by decide)
    (by decide)

/-!
## Constants of the backend

`GROUP_ORDER` is the constant parsed from `GROUP_ORDER_HEX` in the source.
`sm2p`, `sm2a`, `sm2b`, `sm2gx`, `sm2gy` are the SM2 base-field modulus, curve
coefficients and generator coordinates: parameters of the native engine the
adapter delegates to (the `sm2` crate), fixed by the SM2 standard.
-/

/-- The SM2 group order, `BigInt::from_hex(GROUP_ORDER_HEX)`. -/
def GROUP_ORDER : Nat :=
  0xfffffffeffffffffffffffffffffffff7203df6b21c6052b53bbf40939d54123

/-- The SM2 base-field modulus (an engine constant). -/
def sm2p : Nat :=
  0xfffffffeffffffffffffffffffffffffffffffff00000000ffffffffffffffff

/-- The SM2 curve coefficient `a` (engine constant `EQUATION_A`). -/
def sm2a : Nat :=
  0xfffffffeffffffffffffffffffffffffffffffff00000000fffffffffffffffc

/-- The SM2 curve coefficient `b` (engine constant `EQUATION_B`). -/
def sm2b : Nat :=
  0x28e9fa9e9d9f5e344d5a9e4bcf6509a7f39789f515ab8f92ddbcbd414d940e93

/-- The x-coordinate of the SM2 generator (engine constant). -/
def sm2gx : Nat :=
  0x32c4ae2c1f1981195f9904466a39c9948fe30bbff2660be1715a4589334c74c7

/-- The y-coordinate of the SM2 generator (engine constant). -/
def sm2gy : Nat :=
  0xbc3736a2f4f6779c59bdcee36b692153d0a9877cc62a474002df32e52139f0a0

instance factGroupOrderPrime : Fact (Nat.Prime GROUP_ORDER) :=
  ⟨prime_115792089210356248756420345214020892766061623724957744567843809356293439045923⟩

instance factSm2pPrime : Fact (Nat.Prime sm2p) :=
  ⟨prime_115792089210356248756420345214020892766250353991924191454421193933289684991999⟩

instance neZeroGroupOrder : NeZero GROUP_ORDER := ⟨by decide⟩

instance neZeroSm2p : NeZero sm2p := ⟨by decide⟩

/-- The SM2 base field, as implemented by the engine's `FieldElement`. -/
abbrev Fp := ZMod sm2p

/-- The scalar type: `Sm2Scalar` wraps an engine scalar `fe` together with a
debug-only `purpose` tag; `PartialEq` compares `fe` alone, so the tag is not
part of the value and the model is the scalar field itself. -/
abbrev Sm2Scalar := ZMod GROUP_ORDER

/-!
## Byte strings

Byte strings are lists of naturals; `natToBE`/`bytesToNat` model the
big-endian codecs used by `BigInt::to_bytes_array`, `BigInt::from_bytes` and
the engine's fixed-width `to_bytes`/`from_repr`.
-/

/-- Fixed-width big-endian encoding of a natural number. -/
def natToBE : Nat → Nat → List Nat
  | 0, _ => []
  | k+1, n => natToBE k (n / 256) ++ [n % 256]

/-- Big-endian interpretation of a byte string. -/
def bytesToNat (bs : List Nat) : Nat := bs.foldl (fun acc b => acc * 256 + b) 0

theorem natToBE_length (k n : Nat) : (natToBE k n).length = k := by
  induction k generalizing n with
  | zero => rfl
  | succ k ih => simp [natToBE, ih]

theorem bytesToNat_snoc (bs : List Nat) (b : Nat) :
    bytesToNat (bs ++ [b]) = bytesToNat bs * 256 + b := by
  simp [bytesToNat, List.foldl_append]

theorem bytesToNat_natToBE {k n : Nat} (h : n < 256 ^ k) :
    bytesToNat (natToBE k n) = n := by
  induction k generalizing n with
  | zero =>
    interval_cases n
    rfl
  | succ k ih =>
    rw [natToBE, bytesToNat_snoc, ih (by
      rw [Nat.div_lt_iff_lt_mul (by norm_num)]
      calc n < 256 ^ (k + 1) := h
      _ = 256 ^ k * 256 := by ring)]
    omega

/-!
## Error types of the library
-/

/-- The library's `DeserializationError`. -/
inductive DeserializationError where
  | mk

/-- The library's `NotOnCurve` error. -/
inductive NotOnCurve where
  | mk

/-!
## Scalar operations (`impl ECScalar for Sm2Scalar`)
-/

/-- `BigInt::to_bytes_array::<N>`: fixed-width big-endian bytes, `none` when
the value does not fit in `N` bytes. -/
def toBytesArray (N n : Nat) : Option (List Nat) :=
  if n < 256 ^ N then some (natToBE N n) else none

/-- Engine `Scalar::from_repr` on a 32-byte big-endian representation: accepts
exactly the canonical encodings, i.e. values below the group order. -/
def scalarFromRepr (bs : List Nat) : Option Sm2Scalar :=
  if bytesToNat bs < GROUP_ORDER then some ((bytesToNat bs : Nat) : Sm2Scalar)
  else none

/-- Engine `Scalar::to_bytes`: canonical 32-byte big-endian encoding. -/
def scalarToBytes (a : Sm2Scalar) : List Nat := natToBE 32 a.val

/-- `Sm2Scalar::zero` (`Scalar::ZERO`). -/
def Sm2Scalar.zero : Sm2Scalar := 0

/-- `Sm2Scalar::is_zero`. -/
def Sm2Scalar.is_zero (a : Sm2Scalar) : Bool := a = Sm2Scalar.zero

/-- `Sm2Scalar::from_bigint`: reduce modulo the group order
(`BigInt::modulus`, which is the non-negative Euclidean remainder), encode as
32 bytes, then `Scalar::from_repr`.  The two potential panic sites — the
`expect` on `to_bytes_array` and the `unwrap` on `from_repr` — are modelled by
`none`. -/
def Sm2Scalar.from_bigint (n : Int) : Option Sm2Scalar :=
  match toBytesArray 32 (n % (GROUP_ORDER : Int)).toNat with
  | none => none
  | some bs =>
    match scalarFromRepr bs with
    | none => none
    | some s => some s

/-- `Sm2Scalar::to_bigint`: `BigInt::from_bytes(self.fe.to_bytes())`. -/
def Sm2Scalar.to_bigint (a : Sm2Scalar) : Int := (bytesToNat (scalarToBytes a) : Int)

/-- `Sm2Scalar::serialize`: `self.fe.to_bytes()`. -/
def Sm2Scalar.serialize (a : Sm2Scalar) : List Nat := scalarToBytes a

/-- `Sm2Scalar::deserialize`: a 32-byte array is required (`try_from`), then
`Scalar::from_repr` must accept it. -/
def Sm2Scalar.deserialize (bs : List Nat) : Except DeserializationError Sm2Scalar :=
  if bs.length = 32 then
    match scalarFromRepr bs with
    | some s => .ok s
    | none => .error .mk
  else .error .mk

/-- `Sm2Scalar::add`: engine field addition. -/
def Sm2Scalar.add (a b : Sm2Scalar) : Sm2Scalar := a + b

/-- `Sm2Scalar::mul`: engine field multiplication. -/
def Sm2Scalar.mul (a b : Sm2Scalar) : Sm2Scalar := a * b

/-- `Sm2Scalar::sub`: engine field subtraction. -/
def Sm2Scalar.sub (a b : Sm2Scalar) : Sm2Scalar := a - b

/-- `Sm2Scalar::neg`: engine field negation. -/
def Sm2Scalar.neg (a : Sm2Scalar) : Sm2Scalar := -a

/-- `Sm2Scalar::invert`: the engine's `Scalar::invert` computes the Fermat
power `a ^ (GROUP_ORDER - 2)` and reports "no value" exactly for zero. -/
def Sm2Scalar.invert (a : Sm2Scalar) : Option Sm2Scalar :=
  if a = 0 then none
  else some ((powMod a.val (GROUP_ORDER - 2) GROUP_ORDER : Nat) : Sm2Scalar)

/-- `Sm2Scalar::group_order`. -/
def Sm2Scalar.group_order : Nat := GROUP_ORDER

/-- Explicit form of `from_bigint`: both internal failure branches are
unreachable and the result is the canonical residue. -/
theorem from_bigint_eq (n : Int) :
    Sm2Scalar.from_bigint n =
      some (((n % (GROUP_ORDER : Int)).toNat : Nat) : Sm2Scalar) := by
  have hord : (0 : Int) < (GROUP_ORDER : Int) := by
    have : (0 : Nat) < GROUP_ORDER := Nat.pos_of_ne_zero (NeZero.ne _)
    exact_mod_cast this
  have hmod : 0 ≤ n % (GROUP_ORDER : Int) := Int.emod_nonneg n (by omega)
  have hlt : n % (GROUP_ORDER : Int) < (GROUP_ORDER : Int) := Int.emod_lt_of_pos n hord
  have hltN : (n % (GROUP_ORDER : Int)).toNat < GROUP_ORDER := by omega
  have hfit : (n % (GROUP_ORDER : Int)).toNat < 256 ^ 32 := by
    have : GROUP_ORDER < 256 ^ 32 := by decide
    omega
  simp only [Sm2Scalar.from_bigint, toBytesArray, scalarFromRepr, if_pos hfit,
    bytesToNat_natToBE hfit, if_pos hltN]

/-!
## The SM2 curve and its points

The engine's affine points are the points of the short Weierstrass curve
`y^2 = x^3 + sm2a * x + sm2b` over `Fp`, together with the point at infinity
(`AffinePoint::IDENTITY`).  `Sm2Point` wraps such a point with a debug-only
`purpose` tag that `PartialEq` ignores, so the model is the point type itself.
-/

/-- The SM2 short Weierstrass curve. -/
def sm2Curve : WeierstrassCurve.Affine Fp :=
  { a₁ := 0, a₂ := 0, a₃ := 0, a₄ := (sm2a : Fp), a₆ := (sm2b : Fp) }

/-- The point type of the backend. -/
abbrev Sm2Point := sm2Curve.Point

theorem sm2_equation_iff (x y : Fp) :
    sm2Curve.Equation x y ↔ y ^ 2 = x ^ 3 + (sm2a : Fp) * x + (sm2b : Fp) := by
  rw [WeierstrassCurve.Affine.equation_iff]
  simp only [sm2Curve]
  constructor <;> intro h <;> linear_combination h

theorem sm2_delta_ne_zero : sm2Curve.Δ ≠ 0 := by
  have h : sm2Curve.Δ = -((64 * sm2a ^ 3 + 432 * sm2b ^ 2 : Nat) : Fp) := by
    simp only [WeierstrassCurve.Δ, WeierstrassCurve.b₂, WeierstrassCurve.b₄,
      WeierstrassCurve.b₆, WeierstrassCurve.b₈, sm2Curve]
    push_cast
    ring
  rw [h, neg_ne_zero]
  intro hc
  rw [ZMod.natCast_zmod_eq_zero_iff_dvd] at hc
  revert hc
  decide

/-- Every point satisfying the equation is nonsingular (the discriminant of
the SM2 curve is non-zero). -/
theorem equation_nonsingular {x y : Fp} (h : sm2Curve.Equation x y) :
    sm2Curve.Nonsingular x y :=
  sm2Curve.nonsingular_of_Δ_ne_zero h sm2_delta_ne_zero

theorem generator_on_curve : sm2Curve.Equation (sm2gx : Fp) (sm2gy : Fp) := by
  rw [sm2_equation_iff]
  have h : ((sm2gy ^ 2 : Nat) : Fp) = ((sm2gx ^ 3 + sm2a * sm2gx + sm2b : Nat) : Fp) := by
    rw [ZMod.natCast_eq_natCast_iff']
    decide
  push_cast at h
  exact_mod_cast h

/-- The process-wide `GENERATOR` constant (`AffinePoint::generator()`). -/
def GENERATOR : Sm2Point :=
  WeierstrassCurve.Affine.Point.some (equation_nonsingular generator_on_curve)

/-!
## The group law

`add_point` delegates to the engine's complete projective addition followed by
`to_affine`; on the nonsingular curve this computes exactly the affine
chord-and-tangent group law, which Mathlib packages on `Sm2Point`.  Mathlib's
addition is stated classically, so we give a computable twin and show it agrees.
-/

/-- Computable slope of the line through two affine points (Mathlib's
`WeierstrassCurve.Affine.slope`, with decidable case splits). -/
def slopeC (x₁ x₂ y₁ y₂ : Fp) : Fp :=
  if x₁ = x₂ then
    if y₁ = sm2Curve.negY x₂ y₂ then 0
    else
      (3 * x₁ ^ 2 + 2 * sm2Curve.a₂ * x₁ + sm2Curve.a₄ - sm2Curve.a₁ * y₁) /
        (y₁ - sm2Curve.negY x₁ y₁)
  else (y₁ - y₂) / (x₁ - x₂)

theorem slopeC_eq (x₁ x₂ y₁ y₂ : Fp) : slopeC x₁ x₂ y₁ y₂ = sm2Curve.slope x₁ x₂ y₁ y₂ := by
  unfold slopeC WeierstrassCurve.Affine.slope
  by_cases hx : x₁ = x₂
  · by_cases hy : y₁ = sm2Curve.negY x₂ y₂
    · rw [if_pos hx, if_pos hy, if_pos hx, if_pos hy]
    · rw [if_pos hx, if_neg hy, if_pos hx, if_neg hy]
  · rw [if_neg hx, if_neg hx]

/-- Computable group-law addition on `Sm2Point` (the result of the engine's
`ProjectivePoint` addition converted back with `to_affine`). -/
def addP : Sm2Point → Sm2Point → Sm2Point
  | .zero, P => P
  | P, .zero => P
  | @WeierstrassCurve.Affine.Point.some _ _ _ x₁ y₁ h₁,
    @WeierstrassCurve.Affine.Point.some _ _ _ x₂ y₂ h₂ =>
    if h : x₁ = x₂ ∧ y₁ = sm2Curve.negY x₂ y₂ then .zero
    else
      WeierstrassCurve.Affine.Point.some
        (x := sm2Curve.addX x₁ x₂ (slopeC x₁ x₂ y₁ y₂))
        (y := sm2Curve.addY x₁ x₂ y₁ (slopeC x₁ x₂ y₁ y₂))
        (by
          rw [slopeC_eq]
          exact WeierstrassCurve.Affine.nonsingular_add h₁ h₂ fun hx hy => h ⟨hx, hy⟩)

theorem addP_eq (P Q : Sm2Point) : addP P Q = P + Q := by
  cases P with
  | zero =>
    cases Q with
    | zero => rfl
    | some h => rfl
  | @some x₁ y₁ h₁ =>
    cases Q with
    | zero => rfl
    | @some x₂ y₂ h₂ =>
      by_cases hc : x₁ = x₂ ∧ y₁ = sm2Curve.negY x₂ y₂
      · rw [WeierstrassCurve.Affine.Point.add_of_Y_eq hc.1 hc.2]
        simp only [addP, dif_pos hc]
        rfl
      · rw [WeierstrassCurve.Affine.Point.add_of_imp fun hx hy => hc ⟨hx, hy⟩]
        simp only [addP, dif_neg hc, slopeC_eq]

/-!
## Point operations of the adapter (`impl ECPoint for Sm2Point`)
-/

/-- `Sm2Point::zero` (`AffinePoint::identity()`). -/
def Sm2Point.zero : Sm2Point := WeierstrassCurve.Affine.Point.zero

/-- `Sm2Point::is_zero` (`is_identity`). -/
def Sm2Point.is_zero : Sm2Point → Bool
  | .zero => true
  | .some _ => false

/-- `Sm2Point::generator`. -/
def Sm2Point.generator : Sm2Point := GENERATOR

/-- `Sm2Point::base_point2` (also returns the `GENERATOR` constant). -/
def Sm2Point.base_point2 : Sm2Point := GENERATOR

/-- `Sm2Point::add_point` (projective addition, then `to_affine`). -/
def Sm2Point.add_point (P Q : Sm2Point) : Sm2Point := addP P Q

/-- `Sm2Point::neg_point` (engine affine negation). -/
def Sm2Point.neg_point (P : Sm2Point) : Sm2Point := -P

/-- Engine `to_encoded_point`: the identity encodes as the single byte 0;
otherwise SEC1 tag 2/3 (compressed, by the parity of y) followed by the
x bytes, or tag 4 followed by the x and y bytes. -/
def toEncodedPoint (P : Sm2Point) (compress : Bool) : List Nat :=
  match P with
  | .zero => [0]
  | @WeierstrassCurve.Affine.Point.some _ _ _ x y _ =>
    if compress then (2 + y.val % 2) :: natToBE 32 x.val
    else 4 :: (natToBE 32 x.val ++ natToBE 32 y.val)

/-- sec1 `EncodedPoint::x`: absent for the identity encoding, otherwise the
32 bytes after the tag. -/
def encodedX (bs : List Nat) : Option (List Nat) :=
  if bs.length ≤ 1 then none else some ((bs.drop 1).take 32)

/-- sec1 `EncodedPoint::y`: present only in the uncompressed encoding. -/
def encodedY (bs : List Nat) : Option (List Nat) :=
  if bs.length = 65 then some (bs.drop 33) else none

/-- `Sm2Point::x_coord`: x bytes of the uncompressed encoding, if present. -/
def Sm2Point.x_coord (P : Sm2Point) : Option Nat :=
  (encodedX (toEncodedPoint P false)).map bytesToNat

/-- `Sm2Point::y_coord`: y bytes of the uncompressed encoding, if present. -/
def Sm2Point.y_coord (P : Sm2Point) : Option Nat :=
  (encodedY (toEncodedPoint P false)).map bytesToNat

/-- The library's `PointCoords` pair. -/
structure PointCoords where
  x : Nat
  y : Nat
  deriving DecidableEq

/-- `Sm2Point::coords`: both coordinates, via the `?` chain on `x()`/`y()`. -/
def Sm2Point.coords (P : Sm2Point) : Option PointCoords :=
  match encodedX (toEncodedPoint P false), encodedY (toEncodedPoint P false) with
  | some xb, some yb => some ⟨bytesToNat xb, bytesToNat yb⟩
  | _, _ => none

/-- `Sm2Point::serialize_compressed`. -/
def Sm2Point.serialize_compressed (P : Sm2Point) : List Nat :=
  if P.is_zero then List.replicate 33 0 else toEncodedPoint P true

/-- `Sm2Point::serialize_uncompressed`. -/
def Sm2Point.serialize_uncompressed (P : Sm2Point) : List Nat :=
  if P.is_zero then List.replicate 65 0 else toEncodedPoint P false

/-- sec1 `EncodedPoint::from_bytes`: validates the tag byte against the
length and returns the encoding unchanged. -/
def encodedPointFromBytes (bs : List Nat) : Option (List Nat) :=
  match bs with
  | [] => none
  | t :: rest =>
    if t = 0 ∧ rest.length = 0 then some bs
    else if (t = 2 ∨ t = 3) ∧ rest.length = 32 then some bs
    else if t = 4 ∧ rest.length = 64 then some bs
    else none

/-- Engine `FieldElement::sqrt` for `p ≡ 3 mod 4`: candidate root by the
exponent `(p + 1) / 4`, validated by squaring. -/
def fpSqrt (α : Fp) : Option Fp :=
  let s : Fp := ((powMod α.val ((sm2p + 1) / 4) sm2p : Nat) : Fp)
  if s * s = α then some s else none

/-- Constructs the affine point `(x, y)`, validating the curve equation as
the engine does for uncompressed input.  In the compressed path the
validation is redundant — the square-root check already enforces the
equation — so inserting it there does not change the function's value. -/
def mkPoint (x y : Fp) : Option Sm2Point :=
  if h : y ^ 2 = x ^ 3 + (sm2a : Fp) * x + (sm2b : Fp) then
    some (WeierstrassCurve.Affine.Point.some
      (equation_nonsingular ((sm2_equation_iff x y).mpr h)))
  else none

/-- Engine `AffinePoint::from_encoded_point` (the `primeorder`
implementation): the identity for the identity encoding; for compressed
input, decode x canonically and recover y as the square root whose parity
matches the tag; for uncompressed input, decode both coordinates canonically
and validate the curve equation. -/
def fromEncodedPoint (bs : List Nat) : Option Sm2Point :=
  match bs with
  | [] => none
  | t :: rest =>
    if t = 0 ∧ rest = [] then some Sm2Point.zero
    else if t = 2 ∨ t = 3 then
      let xn := bytesToNat rest
      if xn < sm2p then
        let x : Fp := (xn : Fp)
        match fpSqrt (x ^ 3 + (sm2a : Fp) * x + (sm2b : Fp)) with
        | none => none
        | some s => mkPoint x (if (s.val % 2 = 1) ↔ (t = 3) then s else -s)
      else none
    else if t = 4 then
      let xn := bytesToNat (rest.take 32)
      let yn := bytesToNat (rest.drop 32)
      if xn < sm2p ∧ yn < sm2p then mkPoint (xn : Fp) (yn : Fp)
      else none
    else none

/-- `Sm2Point::deserialize`: all-zero buffers of either valid width are the
identity; otherwise parse with `EncodedPoint::from_bytes` (errors become
`DeserializationError`) and convert with `from_encoded_point`, whose result
is `unwrap`ped — the outer `Option` is `none` exactly when that `unwrap`
panics. -/
def Sm2Point.deserialize (bs : List Nat) :
    Option (Except DeserializationError Sm2Point) :=
  if bs = List.replicate 33 0 ∨ bs = List.replicate 65 0 then
    some (.ok Sm2Point.zero)
  else
    match encodedPointFromBytes bs with
    | none => some (.error .mk)
    | some enc =>
      match fromEncodedPoint enc with
      | none => none
      | some P => some (.ok P)

/-!
## Auxiliary lemmas for the claims
-/

theorem natCast_mod_self {n : Nat} (x : Nat) : ((x % n : Nat) : ZMod n) = (x : ZMod n) := by
  rw [ZMod.natCast_eq_natCast_iff', Nat.mod_mod_of_dvd _ dvd_rfl]

theorem powMod_cast {n : Nat} [NeZero n] (a : ZMod n) (e : Nat) (he : e < 2 ^ 300) :
    ((powMod a.val e n : Nat) : ZMod n) = a ^ e := by
  rw [powMod_correct _ _ _ (Nat.pos_of_ne_zero (NeZero.ne n)) he, natCast_mod_self,
    Nat.cast_pow, ZMod.natCast_rightInverse a]

/-!
## Claim theorems
-/

/-- C10: in this backend `base_point2()` returns a point equal to
`generator()`: the secondary base point is not independent of the primary
generator. -/
theorem base_point2_eq_generator : Sm2Point.base_point2 = Sm2Point.generator := rfl

/-- C4: `serialize_compressed` of the identity is 33 zero bytes,
`serialize_uncompressed` of the identity is 65 zero bytes, and `deserialize`
of either all-zero buffer returns the identity. -/
theorem identity_point_encoding :
    Sm2Point.serialize_compressed Sm2Point.zero = List.replicate 33 0 ∧
    Sm2Point.serialize_uncompressed Sm2Point.zero = List.replicate 65 0 ∧
    Sm2Point.deserialize (List.replicate 33 0) = some (.ok Sm2Point.zero) ∧
    Sm2Point.deserialize (List.replicate 65 0) = some (.ok Sm2Point.zero) :=
  ⟨rfl, rfl, rfl, rfl⟩

/-- C7: point addition is commutative, the identity is neutral, and adding
the negation of a point yields the identity. -/
theorem add_point_group_laws (P Q : Sm2Point) :
    Sm2Point.add_point P Q = Sm2Point.add_point Q P ∧
    Sm2Point.add_point P Sm2Point.zero = P ∧
    Sm2Point.add_point P (Sm2Point.neg_point P) = Sm2Point.zero := by
  unfold Sm2Point.add_point Sm2Point.neg_point Sm2Point.zero
  simp only [addP_eq, WeierstrassCurve.Affine.Point.zero_def]
  exact ⟨add_comm P Q, add_zero P, add_neg_cancel P⟩

/-- C7 witness at concrete points. -/
theorem add_point_group_laws_witness :
    Sm2Point.add_point Sm2Point.zero Sm2Point.zero = Sm2Point.zero :=
  (add_point_group_laws Sm2Point.zero Sm2Point.zero).2.1

/-- C2: `to_bigint (from_bigint n)` is the canonical non-negative residue of
`n` modulo the group order, for every integer `n`. -/
theorem to_bigint_from_bigint (n : Int) :
    (Sm2Scalar.from_bigint n).map Sm2Scalar.to_bigint =
      some (n % (GROUP_ORDER : Int)) := by
  have hord : (0 : Int) < (GROUP_ORDER : Int) := by
    have : (0 : Nat) < GROUP_ORDER := Nat.pos_of_ne_zero (NeZero.ne _)
    exact_mod_cast this
  have hmod : 0 ≤ n % (GROUP_ORDER : Int) := Int.emod_nonneg n (by omega)
  have hlt : n % (GROUP_ORDER : Int) < (GROUP_ORDER : Int) := Int.emod_lt_of_pos n hord
  have hltN : (n % (GROUP_ORDER : Int)).toNat < GROUP_ORDER := by omega
  have hfit : (n % (GROUP_ORDER : Int)).toNat < 256 ^ 32 := by
    have : GROUP_ORDER < 256 ^ 32 := by decide
    omega
  rw [from_bigint_eq, Option.map_some', Sm2Scalar.to_bigint, scalarToBytes,
    ZMod.val_natCast_of_lt hltN, bytesToNat_natToBE hfit]
  exact congrArg some (Int.toNat_of_nonneg hmod)

/-- C8: `from_bigint` is total: neither of its internal failure branches
(the byte-width `expect` and the `from_repr` `unwrap`) is reachable, for any
integer input. -/
theorem from_bigint_total (n : Int) : (Sm2Scalar.from_bigint n).isSome = true := by
  rw [from_bigint_eq]
  rfl

/-- C8 witness at a concrete negative input. -/
theorem from_bigint_total_witness : (Sm2Scalar.from_bigint (-5)).isSome = true :=
  from_bigint_total (-5)

/-- C5: scalar deserialization rejects every byte string whose length is not
32 and every 32-byte string whose big-endian value reaches the group order;
such inputs are never silently reduced. -/
theorem scalar_deserialize_rejects (bs : List Nat)
    (h : bs.length ≠ 32 ∨ GROUP_ORDER ≤ bytesToNat bs) :
    Sm2Scalar.deserialize bs = .error .mk := by
  by_cases hl : bs.length = 32
  · rcases h with h | h
    · exact absurd hl h
    · rw [Sm2Scalar.deserialize, if_pos hl, scalarFromRepr, if_neg (by omega)]
  · rw [Sm2Scalar.deserialize, if_neg hl]

/-- C5 witness: the empty byte string is rejected. -/
theorem scalar_deserialize_rejects_witness :
    Sm2Scalar.deserialize [] = .error .mk :=
  scalar_deserialize_rejects [] (Or.inl (by decide))

theorem group_order_lt_pow300 : GROUP_ORDER < 2 ^ 300 :=
  lt_of_lt_of_le (by decide : GROUP_ORDER < 2 ^ 256)
    (Nat.pow_le_pow_right (by norm_num) (by norm_num))

theorem sm2p_lt_pow300 : sm2p < 2 ^ 300 :=
  lt_of_lt_of_le (by decide : sm2p < 2 ^ 256)
    (Nat.pow_le_pow_right (by norm_num) (by norm_num))

/-- C6: `invert` returns no value exactly for the zero scalar, and for a
nonzero scalar returns an inverse whose product with the scalar is one. -/
theorem invert_none_iff_zero (a : Sm2Scalar) :
    (Sm2Scalar.invert a = none ↔ a = Sm2Scalar.zero) ∧
    (a ≠ Sm2Scalar.zero → ∃ b, Sm2Scalar.invert a = some b ∧ Sm2Scalar.mul a b = 1) := by
  have h2 : (2 : Nat) ≤ GROUP_ORDER := by decide
  constructor
  · constructor
    · intro h
      by_contra hne
      rw [Sm2Scalar.invert, if_neg (show ¬ a = 0 from hne)] at h
      exact Option.some_ne_none _ h
    · intro h
      rw [Sm2Scalar.invert, if_pos (show a = 0 from h)]
  · intro h
    have hne : a ≠ 0 := h
    refine ⟨_, by rw [Sm2Scalar.invert, if_neg hne], ?_⟩
    rw [Sm2Scalar.mul, powMod_cast a _ (Nat.lt_of_le_of_lt (Nat.sub_le _ _) group_order_lt_pow300)]
    calc a * a ^ (GROUP_ORDER - 2) = a ^ (GROUP_ORDER - 2) * a := mul_comm _ _
    _ = a ^ (GROUP_ORDER - 2 + 1) := (pow_succ a _).symm
    _ = a ^ (GROUP_ORDER - 1) := by rw [show GROUP_ORDER - 2 + 1 = GROUP_ORDER - 1 by omega]
    _ = 1 := ZMod.pow_card_sub_one_eq_one hne

/-- C6 witness: the scalar one is its own inverse. -/
theorem invert_none_iff_zero_witness :
    ∃ b, Sm2Scalar.invert 1 = some b ∧ Sm2Scalar.mul 1 b = 1 :=
  (invert_none_iff_zero 1).2 (by decide)

/-- C9: `x_coord`, `y_coord` and `coords` return no value exactly on the
identity point, and coordinates on every other point. -/
theorem coords_none_iff_identity (P : Sm2Point) :
    (Sm2Point.x_coord P = none ↔ P = Sm2Point.zero) ∧
    (Sm2Point.y_coord P = none ↔ P = Sm2Point.zero) ∧
    (Sm2Point.coords P = none ↔ P = Sm2Point.zero) := by
  cases P with
  | zero =>
    refine ⟨⟨fun _ => rfl, fun _ => rfl⟩, ⟨fun _ => rfl, fun _ => rfl⟩,
      fun _ => rfl, fun _ => rfl⟩
  | @some x y hP =>
    have hzero : WeierstrassCurve.Affine.Point.some hP ≠ Sm2Point.zero :=
      WeierstrassCurve.Affine.Point.some_ne_zero hP
    have hlen : (toEncodedPoint (WeierstrassCurve.Affine.Point.some hP) false).length = 65 := by
      simp [toEncodedPoint, natToBE_length]
    refine ⟨⟨fun hc => ?_, fun hc => absurd hc hzero⟩,
      ⟨fun hc => ?_, fun hc => absurd hc hzero⟩,
      fun hc => ?_, fun hc => absurd hc hzero⟩
    · rw [Sm2Point.x_coord, encodedX, if_neg (by omega)] at hc
      exact absurd hc (Option.some_ne_none _)
    · rw [Sm2Point.y_coord, encodedY, if_pos hlen] at hc
      exact absurd hc (Option.some_ne_none _)
    · rw [Sm2Point.coords, encodedX, encodedY, if_neg (by omega), if_pos hlen] at hc
      exact absurd hc (Option.some_ne_none _)

/-- C1 (behaviour at the failing input): deserializing the well-formed SEC1
uncompressed encoding of the off-curve pair `(1, 1)` reaches the `unwrap` on
the engine's rejection and panics (`none`), instead of returning a decoding
error. -/
theorem deserialize_panics_on_off_curve :
    Sm2Point.deserialize (4 :: (natToBE 32 1 ++ natToBE 32 1)) = none := by rfl

/-!
## Round-trip of the codecs (claim C3)
-/

theorem sqrt_exp_lt_pow300 : (sm2p + 1) / 4 < 2 ^ 300 :=
  lt_of_le_of_lt (Nat.div_le_self _ _)
    (lt_of_le_of_lt (by decide : sm2p + 1 ≤ 2 ^ 256)
      (Nat.pow_lt_pow_right (by norm_num) (by norm_num)))

theorem take_32_append {l₁ l₂ : List Nat} (h : l₁.length = 32) :
    (l₁ ++ l₂).take 32 = l₁ := by
  rw [← h, List.take_left]

theorem drop_32_append {l₁ l₂ : List Nat} (h : l₁.length = 32) :
    (l₁ ++ l₂).drop 32 = l₂ := by
  rw [← h, List.drop_left]

theorem scalar_roundtrip (s : Sm2Scalar) :
    Sm2Scalar.deserialize (Sm2Scalar.serialize s) = .ok s := by
  have hval : s.val < GROUP_ORDER := ZMod.val_lt s
  have hfit : s.val < 256 ^ 32 := lt_trans hval (by decide)
  rw [Sm2Scalar.serialize, scalarToBytes, Sm2Scalar.deserialize,
    if_pos (natToBE_length 32 s.val), scalarFromRepr]
  rw [bytesToNat_natToBE hfit, if_pos hval, ZMod.natCast_rightInverse s]

theorem mkPoint_of_nonsingular {x y : Fp} (h : sm2Curve.Nonsingular x y) :
    mkPoint x y = some (WeierstrassCurve.Affine.Point.some h) := by
  have hE : sm2Curve.Equation x y := h.1
  rw [mkPoint, dif_pos ((sm2_equation_iff x y).mp hE)]

theorem fromEncoded_uncompressed {x y : Fp} (h : sm2Curve.Nonsingular x y) :
    fromEncodedPoint (4 :: (natToBE 32 x.val ++ natToBE 32 y.val)) =
      some (WeierstrassCurve.Affine.Point.some h) := by
  have hx : x.val < sm2p := ZMod.val_lt x
  have hy : y.val < sm2p := ZMod.val_lt y
  have hfitx : x.val < 256 ^ 32 := lt_trans hx (by decide)
  have hfity : y.val < 256 ^ 32 := lt_trans hy (by decide)
  rw [fromEncodedPoint, if_neg (by simp), if_neg (by norm_num), if_pos rfl]
  rw [take_32_append (natToBE_length 32 x.val), drop_32_append (natToBE_length 32 x.val)]
  rw [bytesToNat_natToBE hfitx, bytesToNat_natToBE hfity, if_pos ⟨hx, hy⟩]
  rw [show ((x.val : Nat) : Fp) = x from ZMod.natCast_rightInverse x,
    show ((y.val : Nat) : Fp) = y from ZMod.natCast_rightInverse y]
  exact mkPoint_of_nonsingular h

theorem fpSqrt_of_sq (y : Fp) : ∃ s, fpSqrt (y ^ 2) = some s ∧ (s = y ∨ s = -y) := by
  have hcast : ((powMod (y ^ 2).val ((sm2p + 1) / 4) sm2p : Nat) : Fp) =
      (y ^ 2) ^ ((sm2p + 1) / 4) := powMod_cast _ _ sqrt_exp_lt_pow300
  have hsq : ((powMod (y ^ 2).val ((sm2p + 1) / 4) sm2p : Nat) : Fp) *
      ((powMod (y ^ 2).val ((sm2p + 1) / 4) sm2p : Nat) : Fp) = y ^ 2 := by
    rw [hcast, ← pow_add,
      show (sm2p + 1) / 4 + (sm2p + 1) / 4 = (sm2p + 1) / 2 from by decide,
      ← pow_mul, show 2 * ((sm2p + 1) / 2) = sm2p + 1 from by decide]
    by_cases hy : y = 0
    · rw [hy, zero_pow (by decide : sm2p + 1 ≠ 0), zero_pow (by norm_num : (2 : Nat) ≠ 0)]
    · rw [show sm2p + 1 = sm2p - 1 + 2 from by decide, pow_add,
        ZMod.pow_card_sub_one_eq_one hy, one_mul]
  refine ⟨((powMod (y ^ 2).val ((sm2p + 1) / 4) sm2p : Nat) : Fp), ?_, ?_⟩
  · rw [fpSqrt]
    simp only [if_pos hsq]
  · have hfac : (((powMod (y ^ 2).val ((sm2p + 1) / 4) sm2p : Nat) : Fp) - y) *
        (((powMod (y ^ 2).val ((sm2p + 1) / 4) sm2p : Nat) : Fp) + y) = 0 := by
      linear_combination hsq
    rcases mul_eq_zero.mp hfac with h0 | h0
    · exact Or.inl (sub_eq_zero.mp h0)
    · exact Or.inr (eq_neg_of_add_eq_zero_left h0)

theorem fromEncoded_compressed {x y : Fp} (h : sm2Curve.Nonsingular x y) :
    fromEncodedPoint ((2 + y.val % 2) :: natToBE 32 x.val) =
      some (WeierstrassCurve.Affine.Point.some h) := by
  have hx : x.val < sm2p := ZMod.val_lt x
  have hfitx : x.val < 256 ^ 32 := lt_trans hx (by decide)
  have hr : y.val % 2 < 2 := Nat.mod_lt _ (by norm_num)
  have ht0 : ¬ (2 + y.val % 2 = 0 ∧ natToBE 32 x.val = ([] : List Nat)) := by
    rintro ⟨hc, -⟩
    omega
  have ht23 : 2 + y.val % 2 = 2 ∨ 2 + y.val % 2 = 3 := by omega
  rw [fromEncodedPoint, if_neg ht0, if_pos ht23]
  rw [bytesToNat_natToBE hfitx, if_pos hx,
    show ((x.val : Nat) : Fp) = x from ZMod.natCast_rightInverse x]
  have hE : y ^ 2 = x ^ 3 + (sm2a : Fp) * x + (sm2b : Fp) := (sm2_equation_iff x y).mp h.1
  obtain ⟨s, hs, hsy⟩ := fpSqrt_of_sq y
  simp only [← hE, hs]
  have hy' : (if (s.val % 2 = 1) ↔ (2 + y.val % 2 = 3) then s else -s) = y := by
    by_cases hy0 : y = 0
    · have hs0 : s = 0 := by
        rcases hsy with rfl | rfl
        · exact hy0
        · rw [hy0, neg_zero]
      rw [hs0, hy0, neg_zero, ite_self]
    · have hv0 : y.val ≠ 0 := fun hc => hy0 ((ZMod.val_eq_zero y).mp hc)
      have hvp : y.val < sm2p := ZMod.val_lt y
      have hodd : sm2p % 2 = 1 := by decide
      rcases hsy with rfl | rfl
      · exact if_pos (Iff.intro (fun h1 => by omega) (fun h1 => by omega))
      · by_cases hyy : -y = y
        · exfalso
          apply hy0
          have h2y : y + y = 0 := by nth_rewrite 1 [← hyy]; exact neg_add_cancel y
          have h2z : (2 : Fp) * y = 0 := by linear_combination h2y
          rcases mul_eq_zero.mp h2z with h20 | hy00
          · exact absurd h20 (by decide)
          · exact hy00
        · have hyv : (-y).val = sm2p - y.val := by rw [ZMod.neg_val, if_neg hy0]
          rw [if_neg ?hcond, neg_neg]
          case hcond =>
            rw [hyv]
            intro hc
            rcases Nat.mod_two_eq_zero_or_one y.val with h2 | h2
            · have h3 := hc.mp (by omega)
              omega
            · have h4 := hc.mpr (by omega)
              omega
  rw [hy']
  exact mkPoint_of_nonsingular h

theorem deserialize_of_fromEncoded {bs : List Nat} {P : Sm2Point}
    (hrep : ¬ (bs = List.replicate 33 0 ∨ bs = List.replicate 65 0))
    (henc : encodedPointFromBytes bs = some bs)
    (hdec : fromEncodedPoint bs = some P) :
    Sm2Point.deserialize bs = some (.ok P) := by
  simp only [Sm2Point.deserialize, if_neg hrep, henc, hdec]

theorem point_roundtrip (P : Sm2Point) :
    Sm2Point.deserialize (Sm2Point.serialize_compressed P) = some (.ok P) ∧
    Sm2Point.deserialize (Sm2Point.serialize_uncompressed P) = some (.ok P) := by
  cases P with
  | zero => exact ⟨rfl, rfl⟩
  | @some x y h =>
    have hlen : (natToBE 32 x.val).length = 32 := natToBE_length 32 x.val
    have hylen : (natToBE 32 y.val).length = 32 := natToBE_length 32 y.val
    have hr : y.val % 2 < 2 := Nat.mod_lt _ (by norm_num)
    have hnz : Sm2Point.is_zero (WeierstrassCurve.Affine.Point.some h) ≠ true :=
      fun hc => Bool.noConfusion hc
    constructor
    · have henc : Sm2Point.serialize_compressed (WeierstrassCurve.Affine.Point.some h) =
          (2 + y.val % 2) :: natToBE 32 x.val := by
        rw [Sm2Point.serialize_compressed, if_neg hnz]
        rfl
      rw [henc]
      refine deserialize_of_fromEncoded ?_ ?_ (fromEncoded_compressed h)
      · rintro (hc | hc) <;>
          have h0 := congrArg (fun l => l.headD 0) hc <;>
          simp only [List.headD_cons] at h0
        · rw [show (List.replicate 33 (0 : Nat)).headD 0 = 0 from rfl] at h0
          omega
        · rw [show (List.replicate 65 (0 : Nat)).headD 0 = 0 from rfl] at h0
          omega
      · rw [encodedPointFromBytes, if_neg (by rintro ⟨hc, -⟩; omega),
          if_pos ⟨by omega, hlen⟩]
    · have henc : Sm2Point.serialize_uncompressed (WeierstrassCurve.Affine.Point.some h) =
          4 :: (natToBE 32 x.val ++ natToBE 32 y.val) := by
        rw [Sm2Point.serialize_uncompressed, if_neg hnz]
        rfl
      have hrest : (natToBE 32 x.val ++ natToBE 32 y.val).length = 64 := by
        rw [List.length_append, hlen, hylen]
      rw [henc]
      refine deserialize_of_fromEncoded ?_ ?_ (fromEncoded_uncompressed h)
      · rintro (hc | hc) <;>
          have h0 := congrArg (fun l => l.headD 0) hc <;>
          simp only [List.headD_cons] at h0
        · rw [show (List.replicate 33 (0 : Nat)).headD 0 = 0 from rfl] at h0
          omega
        · rw [show (List.replicate 65 (0 : Nat)).headD 0 = 0 from rfl] at h0
          omega
      · rw [encodedPointFromBytes, if_neg (by rintro ⟨hc, -⟩; omega),
          if_neg (by rintro ⟨hc | hc, -⟩ <;> omega), if_pos ⟨rfl, hrest⟩]

/-- C3: scalar serialization round-trips through deserialization, and point
serialization round-trips through deserialization in both the compressed and
the uncompressed format, including for the identity point. -/
theorem codec_roundtrip :
    (∀ s : Sm2Scalar, Sm2Scalar.deserialize (Sm2Scalar.serialize s) = .ok s) ∧
    ∀ P : Sm2Point,
      Sm2Point.deserialize (Sm2Point.serialize_compressed P) = some (.ok P) ∧
      Sm2Point.deserialize (Sm2Point.serialize_uncompressed P) = some (.ok P) :=
  ⟨scalar_roundtrip, point_roundtrip⟩
